import Mathlib

/-!
# SMC checkpoint-replication core (migration/smc.h)

A shallow embedding of the declarations and inline functions of
migration/smc.h, followed by theorems about them.

Conventions of the embedding:
* C unsigned integers are natural numbers; a conversion to a narrower type is
  written as an explicit remainder modulo a power of two.
* A C pointer is a natural number, the null pointer being 0.
* A function that can hit a failing SMC_ASSERT returns in Except.
* Functions whose bodies are not part of smc.h are marked as modelled in their
  doc comments.
-/

namespace SMC

/-! ## Constants -/

def SMC_DIRTY_FLAGS_IN_CHECKPOINT : Nat := 0x1

def SMC_JHASH_INIT_VAL : Nat := 1824115964

def SMC_STATE_RECV_CHECKPOINT : Int := 0
def SMC_FETCH_CACHE_CAP : Nat := 20000

/-- The null pointer. -/
def NULL : Nat := 0

/-! ## Data model -/

/-- Info about a dirty page within a chunk (struct SMCDirtyPage). -/
structure SMCDirtyPage where
  block_offset : Nat
  offset : Nat
  size : Nat
  flags : Nat
  deriving DecidableEq, Repr

/-- An array of a struct (struct SMCSet). The element bytes are kept as the
list of the nb_eles records currently held. -/
structure SMCSet (α : Type) where
  eles : List α
  cap : Int
  nb_eles : Int
  ele_size : Int
  deriving DecidableEq, Repr

/-- A 32-bit hash value (typedef SMC_HASH). -/
abbrev SMC_HASH := Nat

/-- A prefetched page (struct SMCFetchPage). -/
structure SMCFetchPage where
  block_offset : Nat
  offset : Nat
  size : Nat
  idx : Nat
  hash : SMC_HASH
  deriving DecidableEq, Repr

/-- A saved page (struct SMCBackupPage); data holds the bytes of the owned
buffer, host_addr is the address of the live buffer. -/
structure SMCBackupPage where
  block_offset : Nat
  offset : Nat
  size : Nat
  data : List Nat
  host_addr : Nat
  deriving DecidableEq, Repr

/-- GLib hash table with direct (pointer value) hashing and equality, as an
association list from key pointers to value pointers holding at most one
entry per key. -/
abbrev GHashTable := List (Nat × Nat)

/-- GLib g_hash_table_lookup: the value stored under the key, NULL when the
key has no entry. -/
def g_hash_table_lookup (t : GHashTable) (key : Nat) : Nat :=
  match t with
  | [] => NULL
  | (k, v) :: rest => if k = key then v else g_hash_table_lookup rest key

/-- The table without the entry of the key, if it has one. -/
def g_hash_table_drop (t : GHashTable) (key : Nat) : GHashTable :=
  match t with
  | [] => []
  | (k, v) :: rest =>
    if k = key then g_hash_table_drop rest key else (k, v) :: g_hash_table_drop rest key

/-- GLib g_hash_table_insert: stores the value under the key, replacing the
value of an entry the key already has. -/
def g_hash_table_insert (t : GHashTable) (key value : Nat) : GHashTable :=
  (key, value) :: g_hash_table_drop t key

/-- GLib g_hash_table_remove_all: removes every entry. -/
def g_hash_table_remove_all (_t : GHashTable) : GHashTable := []

/-- Modelled from the spec: the entry type of SMCCache is declared in
smc-cache.h, which is not part of smc.h. The spec describes the cache as a
table "mapping page identity to its most recently observed fingerprint". -/
structure SMCCacheEntry where
  block_offset : Nat
  offset : Nat
  hash : SMC_HASH
  deriving DecidableEq, Repr

/-- Modelled from the spec: SMCCache is declared in smc-cache.h, which is not
part of smc.h. The spec describes it as a "bounded-size table, capacity 20000
entries". -/
structure SMCCache where
  entries : List SMCCacheEntry
  deriving DecidableEq, Repr

/-- The session (struct SMCInfo). The field opaque_ptr is the C field named
opaque. -/
structure SMCInfo where
  init : Bool
  dirty_pages : SMCSet SMCDirtyPage
  prefetch_pages : SMCSet SMCFetchPage
  backup_pages : SMCSet SMCBackupPage
  prefetch_map : GHashTable
  state : Int
  need_rollback : Bool
  opaque_ptr : Nat
  cache : SMCCache
  nr_checkpoints : Nat
  deriving DecidableEq, Repr

/-- Failures of the session operations, after the taxonomy of the spec. -/
inductive SMCError where
  | InvariantViolation
  | FormatError
  deriving DecidableEq, Repr

/-- Modelled from the spec: SMC_ASSERT is a macro of smc-debug.h, which is not
part of smc.h. The spec treats a failed assertion as a fatal
InvariantViolation that aborts the session. -/
def SMC_ASSERT (cond : Bool) : Except SMCError Unit :=
  if cond then Except.ok () else Except.error SMCError.InvariantViolation

/-! ## Inline functions of smc.h -/

def smc_is_init (smc_info : SMCInfo) : Bool :=
  smc_info.init

def smc_prefetch_pages_count (smc_info : SMCInfo) : Int :=
  smc_info.prefetch_pages.nb_eles

def smc_prefetch_pages_info (smc_info : SMCInfo) : List SMCFetchPage :=
  smc_info.prefetch_pages.eles

/-- The key conversion (void *)(uintptr_t)phy_addr of a uint64_t argument,
where uintptr_t is ptr_bits wide. -/
def smc_prefetch_map_key (ptr_bits : Nat) (phy_addr : Nat) : Nat :=
  (phy_addr % 2 ^ 64) % 2 ^ ptr_bits

def smc_prefetch_map_reset (smc_info : SMCInfo) : SMCInfo :=
  { smc_info with prefetch_map := g_hash_table_remove_all smc_info.prefetch_map }

def smc_prefetch_map_insert (ptr_bits : Nat) (smc_info : SMCInfo) (phy_addr : Nat)
    (page : Nat) : Except SMCError SMCInfo := do
  let key := smc_prefetch_map_key ptr_bits phy_addr
  SMC_ASSERT (page != NULL)
  SMC_ASSERT (g_hash_table_lookup smc_info.prefetch_map key == NULL)
  pure { smc_info with prefetch_map := g_hash_table_insert smc_info.prefetch_map key page }

def smc_prefetch_map_lookup (ptr_bits : Nat) (smc_info : SMCInfo) (phy_addr : Nat) : Nat :=
  g_hash_table_lookup smc_info.prefetch_map (smc_prefetch_map_key ptr_bits phy_addr)

/-- Host memory: the byte stored at each address. -/
abbrev Mem := Nat → Nat

/-- The n bytes of memory starting at addr. -/
def mem_read (mem : Mem) (addr n : Nat) : List Nat :=
  (List.range n).map (fun i => mem (addr + i))

/-- C memcpy(dst, src, n) from a buffer with the bytes src into memory. -/
def memcpy (mem : Mem) (dst : Nat) (src : List Nat) (n : Nat) : Mem :=
  fun x => if dst ≤ x ∧ x < dst + n then src.getD (x - dst) 0 else mem x

/-! ## Record sets -/

/-- Modelled from the spec: the SMCSet functions are not in smc.h. The spec
gives "append(record) -> slot_index, amortized O(1), growing capacity
geometrically when full"; the growth factor is taken to be two. -/
def smc_set_insert {α : Type} (smc_set : SMCSet α) (ele : α) : SMCSet α :=
  { smc_set with
    eles := smc_set.eles ++ [ele]
    cap := if smc_set.nb_eles < smc_set.cap then smc_set.cap
           else if smc_set.cap ≤ 0 then 1 else 2 * smc_set.cap
    nb_eles := smc_set.nb_eles + 1 }

/-- Modelled from the spec: the SMCSet functions are not in smc.h. The spec
gives "reset() sets logical length to zero without releasing backing
storage". -/
def smc_set_reset {α : Type} (smc_set : SMCSet α) : SMCSet α :=
  { smc_set with eles := [], nb_eles := 0 }

/-! ## Dirty pages -/

/-- Modelled from the spec: the cache functions are declared in smc-cache.h,
not in smc.h. The entry the cache holds for a page identity, if any. -/
def smc_cache_find (cache : SMCCache) (block_offset offset : Nat) : Option SMCCacheEntry :=
  cache.entries.find? (fun e => e.block_offset == block_offset && e.offset == offset)

/-- Modelled from the spec: "inserting or refreshing each page's stored
fingerprint", for one record: the entry of the page takes the fingerprint of
the record, and a page without an entry gets a new one. -/
def smc_cache_absorb (cache : SMCCache) (page : SMCFetchPage) : SMCCache :=
  let fresh : SMCCacheEntry :=
    { block_offset := page.block_offset, offset := page.offset, hash := page.hash }
  match smc_cache_find cache page.block_offset page.offset with
  | some _ =>
    { entries := cache.entries.map (fun e =>
        if e.block_offset == page.block_offset && e.offset == page.offset then fresh else e) }
  | none => { entries := cache.entries ++ [fresh] }

/-- Modelled from the spec: removes entries, one at a time, the given number
of times. The spec leaves the eviction order open ("eviction policy is an
implementation choice"), so the entry to remove is picked by the parameter
victim, read as a position in the table. -/
def smc_cache_evict_n (victim : List SMCCacheEntry → Nat) :
    Nat → List SMCCacheEntry → List SMCCacheEntry
  | 0, entries => entries
  | n + 1, entries =>
    smc_cache_evict_n victim n (entries.eraseIdx (victim entries % entries.length))

/-- Modelled from the spec: "evicting entries if capacity is exceeded": as
many entries are removed as the table holds beyond SMC_FETCH_CACHE_CAP. -/
def smc_cache_evict (victim : List SMCCacheEntry → Nat) (cache : SMCCache) : SMCCache :=
  { entries := smc_cache_evict_n victim (cache.entries.length - SMC_FETCH_CACHE_CAP)
      cache.entries }

/-- Modelled from the spec: the body of smc_update_prefetch_cache is not in
smc.h. The spec gives "update(session): absorbs the current prefetch cycle's
validated records into the persistent cache, inserting or refreshing each
page's stored fingerprint and evicting entries if capacity is exceeded". Which
records count as validated is the parameter validated. -/
def smc_update_prefetch_cache (victim : List SMCCacheEntry → Nat)
    (validated : SMCFetchPage → Bool) (smc_info : SMCInfo) : SMCInfo :=
  { smc_info with
    cache := smc_cache_evict victim
      ((smc_info.prefetch_pages.eles.filter validated).foldl smc_cache_absorb smc_info.cache) }

/-- The number of entries the cache of a session holds. -/
def smc_cache_count (smc_info : SMCInfo) : Nat :=
  smc_info.cache.entries.length

/-- A sequence of smc_update_prefetch_cache calls, each one preceded by the
prefetch set being replaced by the next set of records; the result lists the
session after each call. -/
def smc_update_prefetch_cache_run (victim : List SMCCacheEntry → Nat)
    (validated : SMCFetchPage → Bool) :
    SMCInfo → List (SMCSet SMCFetchPage) → List SMCInfo
  | _, [] => []
  | smc_info, pages :: rest =>
    let next := smc_update_prefetch_cache victim validated
      { smc_info with prefetch_pages := pages }
    next :: smc_update_prefetch_cache_run victim validated next rest

/-! ## Backup pages -/

/-- Modelled from the spec: the body of smc_backup_pages_insert_empty is not
in smc.h. The spec gives "capture(region_id, region_offset, size, host_ref) ->
BackupRecord reference: copies size bytes from the live buffer into a newly
owned preimage buffer before the page is overwritten speculatively; appends to
the backup RecordSet". The result is the session after the call. -/
def smc_backup_pages_insert_empty (mem : Mem) (smc_info : SMCInfo)
    (block_offset offset size host_addr : Nat) : SMCInfo :=
  { smc_info with
    backup_pages := smc_set_insert smc_info.backup_pages
      { block_offset := block_offset, offset := offset, size := size,
        data := mem_read mem host_addr size, host_addr := host_addr } }

/-- Modelled from the spec: the body of smc_backup_pages_reset is not in
smc.h. The spec gives "reset() discards all backup records (their preimage
buffers)". -/
def smc_backup_pages_reset (smc_info : SMCInfo) : SMCInfo :=
  { smc_info with backup_pages := smc_set_reset smc_info.backup_pages }

/-- Writes the saved bytes of one backup record back to its live buffer. -/
def smc_backup_page_restore (mem : Mem) (page : SMCBackupPage) : Mem :=
  memcpy mem page.host_addr page.data page.size

/-- Modelled from the spec: the body of smc_recover_backup_pages is not in
smc.h. The spec gives "restore_all(session): for every BackupRecord, writes
preimage back into host_ref", "Implementations must restore
newest-to-oldest", "After restore, the backup set is reset". The result is
the memory and the session after the call. -/
def smc_recover_backup_pages (mem : Mem) (smc_info : SMCInfo) : Mem × SMCInfo :=
  (smc_info.backup_pages.eles.reverse.foldl smc_backup_page_restore mem,
   smc_backup_pages_reset smc_info)

/-- The number of backup records a session holds. -/
def smc_backup_pages_count (smc_info : SMCInfo) : Int :=
  smc_info.backup_pages.nb_eles

/-! ## The state machine of the spec -/

/-- A session right after a reset of every collection, in the initial state
of the spec; used as a concrete input. -/
def smc_info_sample : SMCInfo :=
  { init := true
    dirty_pages := { eles := [], cap := 0, nb_eles := 0, ele_size := 24 }
    prefetch_pages := { eles := [], cap := 0, nb_eles := 0, ele_size := 32 }
    backup_pages := { eles := [], cap := 0, nb_eles := 0, ele_size := 40 }
    prefetch_map := []
    state := SMC_STATE_RECV_CHECKPOINT
    need_rollback := false
    opaque_ptr := 0
    cache := { entries := [] }
    nr_checkpoints := 0 }

/-- A concrete memory, used as a concrete input: the byte at an address is the
address modulo 256. -/
def mem_sample : Mem := fun addr => addr % 256

/-- A session whose prefetch set holds one record, for the page at block
offset 0 and offset 4096, that the prefetch index points at; used as a
concrete input. -/
def smc_info_prefetched : SMCInfo :=
  { smc_info_sample with
    prefetch_pages :=
      { eles := [{ block_offset := 0, offset := 4096, size := 4, idx := 0, hash := 6 }],
        cap := 1, nb_eles := 1, ele_size := 32 }
    prefetch_map := [(4096, 1)] }

/-- A session whose cache is full: it holds SMC_FETCH_CACHE_CAP entries, for
the pages of block offset 1; used as a concrete input. -/
def smc_info_full : SMCInfo :=
  { smc_info_sample with
    cache := SMCCache.mk ((List.range SMC_FETCH_CACHE_CAP).map
      (fun i => SMCCacheEntry.mk 1 i 0)) }

/-! ## Sequences of index operations without a reset -/

/-- One call on the prefetch index other than smc_prefetch_map_reset. -/
inductive PrefetchMapOp where
  | insert (phy_addr : Nat) (page : Nat)
  | lookup (phy_addr : Nat)
  deriving DecidableEq, Repr

/-- Runs the calls in order; a failing assertion aborts the run. -/
def smc_prefetch_map_run (ptr_bits : Nat) (smc_info : SMCInfo) :
    List PrefetchMapOp → Except SMCError SMCInfo
  | [] => Except.ok smc_info
  | PrefetchMapOp.insert phy_addr page :: ops =>
    match smc_prefetch_map_insert ptr_bits smc_info phy_addr page with
    | Except.ok s => smc_prefetch_map_run ptr_bits s ops
    | Except.error e => Except.error e
  | PrefetchMapOp.lookup _ :: ops => smc_prefetch_map_run ptr_bits smc_info ops

/-- The addresses a run inserts. -/
def PrefetchMapOp.inserted : List PrefetchMapOp → List Nat
  | [] => []
  | PrefetchMapOp.insert phy_addr _ :: ops => phy_addr :: PrefetchMapOp.inserted ops
  | PrefetchMapOp.lookup _ :: ops => PrefetchMapOp.inserted ops

/-! ## Lemmas on the hash table -/

theorem g_hash_table_lookup_insert_same (t : GHashTable) (key value : Nat) :
    g_hash_table_lookup (g_hash_table_insert t key value) key = value := by
  simp [g_hash_table_insert, g_hash_table_lookup]

theorem g_hash_table_lookup_drop_ne (t : GHashTable) (key other : Nat) (h : other ≠ key) :
    g_hash_table_lookup (g_hash_table_drop t key) other = g_hash_table_lookup t other := by
  induction t with
  | nil => rfl
  | cons e rest ih =>
    obtain ⟨k, v⟩ := e
    by_cases hk : k = key
    · subst hk
      have hne : ¬ k = other := fun h2 => h h2.symm
      simp [g_hash_table_drop, g_hash_table_lookup, hne, ih]
    · by_cases ho : k = other
      · subst ho
        simp [g_hash_table_drop, g_hash_table_lookup, hk]
      · simp [g_hash_table_drop, g_hash_table_lookup, hk, ho, ih]

theorem g_hash_table_lookup_insert_other (t : GHashTable) (key value other : Nat)
    (h : other ≠ key) :
    g_hash_table_lookup (g_hash_table_insert t key value) other
      = g_hash_table_lookup t other := by
  have hne : ¬ key = other := fun h2 => h h2.symm
  simp only [g_hash_table_insert, g_hash_table_lookup, hne, if_false]
  exact g_hash_table_lookup_drop_ne t key other h

/-- What smc_prefetch_map_insert returns, by cases on its two assertions. -/
theorem smc_prefetch_map_insert_eq (w : Nat) (s : SMCInfo) (a p : Nat) :
    smc_prefetch_map_insert w s a p =
      if p = NULL then Except.error SMCError.InvariantViolation
      else if g_hash_table_lookup s.prefetch_map (smc_prefetch_map_key w a) = NULL then
        Except.ok { s with prefetch_map :=
          g_hash_table_insert s.prefetch_map (smc_prefetch_map_key w a) p }
      else Except.error SMCError.InvariantViolation := by
  unfold smc_prefetch_map_insert SMC_ASSERT
  by_cases hp : p = NULL
  · simp [hp, bind, Except.bind]
  · by_cases hl : g_hash_table_lookup s.prefetch_map (smc_prefetch_map_key w a) = NULL
    · simp [hp, hl, bind, Except.bind, pure, Except.pure]
    · simp [hp, hl, bind, Except.bind]

theorem smc_prefetch_map_key_64 (a : Nat) (ha : a < 2 ^ 64) :
    smc_prefetch_map_key 64 a = a := by
  unfold smc_prefetch_map_key
  rw [Nat.mod_mod, Nat.mod_eq_of_lt ha]

theorem smc_prefetch_map_key_narrow (w a : Nat) (hw : w ≤ 32) :
    smc_prefetch_map_key w a = smc_prefetch_map_key w (a + 2 ^ 32) := by
  unfold smc_prefetch_map_key
  have h64 : (2 : Nat) ^ w ∣ 2 ^ 64 := Nat.pow_dvd_pow 2 (by omega)
  have h32 : (2 : Nat) ^ w ∣ 2 ^ 32 := Nat.pow_dvd_pow 2 hw
  rw [Nat.mod_mod_of_dvd _ h64, Nat.mod_mod_of_dvd _ h64]
  obtain ⟨c, hc⟩ := h32
  rw [hc, Nat.add_mul_mod_self_left]

/-- A successful insert stores the page under the key of the address and
leaves the entries of the other keys alone. -/
theorem smc_prefetch_map_insert_ok (w : Nat) (s s1 : SMCInfo) (a p : Nat)
    (h : smc_prefetch_map_insert w s a p = Except.ok s1) :
    p ≠ NULL ∧ g_hash_table_lookup s.prefetch_map (smc_prefetch_map_key w a) = NULL ∧
      s1 = { s with prefetch_map :=
        g_hash_table_insert s.prefetch_map (smc_prefetch_map_key w a) p } := by
  rw [smc_prefetch_map_insert_eq] at h
  by_cases hp : p = NULL
  · simp [hp] at h
  · by_cases hl : g_hash_table_lookup s.prefetch_map (smc_prefetch_map_key w a) = NULL
    · simp only [hp, hl, if_false, if_true] at h
      injection h with h
      exact ⟨hp, hl, h.symm⟩
    · simp [hp, hl] at h

/-- A run without a reset keeps every entry the index already has. -/
theorem smc_prefetch_map_run_keeps (w : Nat) (ops : List PrefetchMapOp) :
    ∀ (s s1 : SMCInfo) (key : Nat), smc_prefetch_map_run w s ops = Except.ok s1 →
      g_hash_table_lookup s.prefetch_map key ≠ NULL →
      g_hash_table_lookup s1.prefetch_map key = g_hash_table_lookup s.prefetch_map key := by
  induction ops with
  | nil =>
    intro s s1 key h _
    simp only [smc_prefetch_map_run] at h
    injection h with h
    rw [h]
  | cons op rest ih =>
    intro s s1 key h hk
    cases op with
    | lookup b => exact ih s s1 key (by simpa [smc_prefetch_map_run] using h) hk
    | insert a p =>
      simp only [smc_prefetch_map_run] at h
      cases hins : smc_prefetch_map_insert w s a p with
      | error e => rw [hins] at h; cases h
      | ok s2 =>
        rw [hins] at h
        obtain ⟨_, hl, hs2⟩ := smc_prefetch_map_insert_ok w s s2 a p hins
        have hne : key ≠ smc_prefetch_map_key w a := by
          intro heq
          rw [heq] at hk
          exact hk hl
        have hstep : g_hash_table_lookup s2.prefetch_map key
            = g_hash_table_lookup s.prefetch_map key := by
          rw [hs2]
          exact g_hash_table_lookup_insert_other _ _ _ _ hne
        rw [ih s2 s1 key h (by rw [hstep]; exact hk), hstep]

/-- A run that inserts no address with the key leaves the key without an
entry. -/
theorem smc_prefetch_map_run_absent (w : Nat) (ops : List PrefetchMapOp) :
    ∀ (s s1 : SMCInfo) (key : Nat), smc_prefetch_map_run w s ops = Except.ok s1 →
      (∀ x ∈ PrefetchMapOp.inserted ops, smc_prefetch_map_key w x ≠ key) →
      g_hash_table_lookup s.prefetch_map key = NULL →
      g_hash_table_lookup s1.prefetch_map key = NULL := by
  induction ops with
  | nil =>
    intro s s1 key h _ hk
    simp only [smc_prefetch_map_run] at h
    injection h with h
    rw [← h]
    exact hk
  | cons op rest ih =>
    intro s s1 key h hx hk
    cases op with
    | lookup b =>
      exact ih s s1 key (by simpa [smc_prefetch_map_run] using h)
        (by simpa [PrefetchMapOp.inserted] using hx) hk
    | insert a p =>
      simp only [smc_prefetch_map_run] at h
      cases hins : smc_prefetch_map_insert w s a p with
      | error e => rw [hins] at h; cases h
      | ok s2 =>
        rw [hins] at h
        obtain ⟨_, _, hs2⟩ := smc_prefetch_map_insert_ok w s s2 a p hins
        have hne : key ≠ smc_prefetch_map_key w a := by
          intro heq
          exact hx a (by simp [PrefetchMapOp.inserted]) heq.symm
        have hstep : g_hash_table_lookup s2.prefetch_map key = NULL := by
          rw [hs2]
          show g_hash_table_lookup (g_hash_table_insert _ _ _) key = NULL
          rw [g_hash_table_lookup_insert_other _ _ _ _ hne]
          exact hk
        exact ih s2 s1 key h
          (fun x hxm => hx x (by simp [PrefetchMapOp.inserted, hxm])) hstep

/-- An insert of a non-null record at an address without an entry succeeds,
and the lookup of the address then returns the record. -/
theorem smc_prefetch_map_insert_fresh (w : Nat) (s : SMCInfo) (a p : Nat)
    (hp : p ≠ NULL) (ha : smc_prefetch_map_lookup w s a = NULL) :
    ∃ s1, smc_prefetch_map_insert w s a p = Except.ok s1 ∧
      smc_prefetch_map_lookup w s1 a = p := by
  refine ⟨{ s with prefetch_map :=
    g_hash_table_insert s.prefetch_map (smc_prefetch_map_key w a) p }, ?_, ?_⟩
  · rw [smc_prefetch_map_insert_eq]
    unfold smc_prefetch_map_lookup at ha
    simp [hp, ha]
  · exact g_hash_table_lookup_insert_same _ _ _

/-! ## The prefetch index -/

/-- C3: once smc_prefetch_map_insert(a, p) has succeeded, and whatever inserts
and lookups follow without a reset, the entry of a is still there and
smc_prefetch_map_insert(a, q) fails on its assertion with an
InvariantViolation, for every pointer width. -/
theorem smc_prefetch_map_insert_twice_fails (ptr_bits : Nat) (s s1 s2 : SMCInfo)
    (a p q : Nat) (ops : List PrefetchMapOp) (hp : p ≠ NULL) (hq : q ≠ NULL)
    (h1 : smc_prefetch_map_insert ptr_bits s a p = Except.ok s1)
    (h2 : smc_prefetch_map_run ptr_bits s1 ops = Except.ok s2) :
    smc_prefetch_map_lookup ptr_bits s2 a = p ∧
      smc_prefetch_map_insert ptr_bits s2 a q
        = Except.error SMCError.InvariantViolation := by
  obtain ⟨_, _, hs1⟩ := smc_prefetch_map_insert_ok ptr_bits s s1 a p h1
  have hl1 : g_hash_table_lookup s1.prefetch_map (smc_prefetch_map_key ptr_bits a) = p := by
    rw [hs1]
    exact g_hash_table_lookup_insert_same _ _ _
  have hl2 : g_hash_table_lookup s2.prefetch_map (smc_prefetch_map_key ptr_bits a) = p := by
    rw [smc_prefetch_map_run_keeps ptr_bits ops s1 s2 _ h2 (by rw [hl1]; exact hp), hl1]
  refine ⟨hl2, ?_⟩
  rw [smc_prefetch_map_insert_eq]
  have hne : ¬ g_hash_table_lookup s2.prefetch_map (smc_prefetch_map_key ptr_bits a) = NULL := by
    rw [hl2]; exact hp
  simp [hq, hne]

theorem smc_prefetch_map_insert_twice_fails_witness :
    smc_prefetch_map_lookup 64
        { smc_info_sample with prefetch_map := [(8192, 6), (4096, 5)] } 4096 = 5 ∧
      smc_prefetch_map_insert 64
        { smc_info_sample with prefetch_map := [(8192, 6), (4096, 5)] } 4096 7
        = Except.error SMCError.InvariantViolation :=
  smc_prefetch_map_insert_twice_fails 64 smc_info_sample
    { smc_info_sample with prefetch_map := [(4096, 5)] }
    { smc_info_sample with prefetch_map := [(8192, 6), (4096, 5)] }
    4096 5 7 [PrefetchMapOp.lookup 4096, PrefetchMapOp.insert 8192 6]
    (by decide) (by decide) rfl rfl

/-- C4, as the code has it: for an address a without an entry and a non-null
record p, the insert succeeds and the lookup of a then returns exactly p, for
every pointer width; and, when uintptr_t is 64 bits wide, after a reset and
any run of inserts and lookups that never inserts the 64-bit address b, the
lookup of b returns NULL. -/
theorem smc_prefetch_map_lookup_optional (ptr_bits : Nat) (s : SMCInfo) (a p : Nat)
    (hp : p ≠ NULL) (ha : smc_prefetch_map_lookup ptr_bits s a = NULL) :
    (∃ s1, smc_prefetch_map_insert ptr_bits s a p = Except.ok s1 ∧
        smc_prefetch_map_lookup ptr_bits s1 a = p) ∧
      (∀ (ops : List PrefetchMapOp) (b : Nat) (s2 : SMCInfo), b < 2 ^ 64 →
        (∀ x ∈ PrefetchMapOp.inserted ops, x < 2 ^ 64 ∧ x ≠ b) →
        smc_prefetch_map_run 64 (smc_prefetch_map_reset s) ops = Except.ok s2 →
        smc_prefetch_map_lookup 64 s2 b = NULL) := by
  constructor
  · exact smc_prefetch_map_insert_fresh ptr_bits s a p hp ha
  · intro ops b s2 hb hx hrun
    unfold smc_prefetch_map_lookup
    refine smc_prefetch_map_run_absent 64 ops (smc_prefetch_map_reset s) s2 _ hrun ?_ rfl
    intro x hxm
    rw [smc_prefetch_map_key_64 x (hx x hxm).1, smc_prefetch_map_key_64 b hb]
    exact (hx x hxm).2

theorem smc_prefetch_map_lookup_optional_witness :
    (∃ s1, smc_prefetch_map_insert 64 smc_info_sample 4096 5 = Except.ok s1 ∧
        smc_prefetch_map_lookup 64 s1 4096 = 5) ∧
      smc_prefetch_map_run 64 (smc_prefetch_map_reset smc_info_prefetched)
          [PrefetchMapOp.insert 8192 6, PrefetchMapOp.lookup 4096]
        = Except.ok { smc_info_prefetched with prefetch_map := [(8192, 6)] } ∧
      smc_prefetch_map_lookup 64
        { smc_info_prefetched with prefetch_map := [(8192, 6)] } 4096 = NULL :=
  ⟨(smc_prefetch_map_lookup_optional 64 smc_info_sample 4096 5 (by decide) (by decide)).1,
   rfl,
   (smc_prefetch_map_lookup_optional 64 smc_info_prefetched 12288 5 (by decide)
      (by decide)).2 [PrefetchMapOp.insert 8192 6, PrefetchMapOp.lookup 4096] 4096
      { smc_info_prefetched with prefetch_map := [(8192, 6)] } (by decide) (by decide) rfl⟩

/-- C4 fails as stated: with a 32-bit uintptr_t, after a reset and the single
insert of address 0 with the record 5, the address 2^32 has not been inserted
since the reset, yet its lookup returns the record 5 and not NULL. -/
theorem smc_prefetch_map_lookup_narrow_hit :
    smc_prefetch_map_run 32 (smc_prefetch_map_reset smc_info_prefetched)
        [PrefetchMapOp.insert 0 5]
        = Except.ok { smc_info_prefetched with prefetch_map := [(0, 5)] } ∧
      2 ^ 32 ∉ PrefetchMapOp.inserted [PrefetchMapOp.insert 0 5] ∧
      2 ^ 32 < 2 ^ 64 ∧
      smc_prefetch_map_lookup 32
        { smc_info_prefetched with prefetch_map := [(0, 5)] } (2 ^ 32) = 5 ∧
      (5 : Nat) ≠ NULL :=
  ⟨rfl, by decide, by decide, by decide, by decide⟩

/-- C5: after smc_prefetch_map_reset the lookup of every address returns NULL,
and the insert of any address with a non-null record succeeds and is found
afterwards, whatever the index held before the reset; for every pointer
width. -/
theorem smc_prefetch_map_reset_clears (ptr_bits : Nat) (s : SMCInfo) (a p : Nat)
    (hp : p ≠ NULL) :
    (∀ b, smc_prefetch_map_lookup ptr_bits (smc_prefetch_map_reset s) b = NULL) ∧
      ∃ s1, smc_prefetch_map_insert ptr_bits (smc_prefetch_map_reset s) a p = Except.ok s1 ∧
        smc_prefetch_map_lookup ptr_bits s1 a = p := by
  have hall : ∀ b, smc_prefetch_map_lookup ptr_bits (smc_prefetch_map_reset s) b = NULL :=
    fun _ => rfl
  exact ⟨hall, smc_prefetch_map_insert_fresh ptr_bits _ a p hp (hall a)⟩

theorem smc_prefetch_map_reset_clears_witness :
    smc_prefetch_map_lookup 64 smc_info_prefetched 4096 = 1 ∧
      smc_prefetch_map_lookup 64 (smc_prefetch_map_reset smc_info_prefetched) 4096 = NULL ∧
      ∃ s1, smc_prefetch_map_insert 64 (smc_prefetch_map_reset smc_info_prefetched) 4096 9
          = Except.ok s1 ∧
        smc_prefetch_map_lookup 64 s1 4096 = 9 :=
  ⟨by decide,
   (smc_prefetch_map_reset_clears 64 smc_info_prefetched 4096 9 (by decide)).1 4096,
   (smc_prefetch_map_reset_clears 64 smc_info_prefetched 4096 9 (by decide)).2⟩

/-- C10: with a 64-bit uintptr_t, a successful smc_prefetch_map_insert(a, p)
leaves the lookup of every other 64-bit address b unchanged; with a uintptr_t
of at most 32 bits the addresses a and a + 2^32 get the same key. -/
theorem smc_prefetch_map_insert_frame (s s1 : SMCInfo) (a b p : Nat)
    (ha : a < 2 ^ 64) (hb : b < 2 ^ 64) (hab : a ≠ b)
    (h : smc_prefetch_map_insert 64 s a p = Except.ok s1) :
    smc_prefetch_map_lookup 64 s1 b = smc_prefetch_map_lookup 64 s b ∧
      ∀ w, w ≤ 32 → smc_prefetch_map_key w a = smc_prefetch_map_key w (a + 2 ^ 32) := by
  obtain ⟨_, _, hs1⟩ := smc_prefetch_map_insert_ok 64 s s1 a p h
  refine ⟨?_, fun w hw => smc_prefetch_map_key_narrow w a hw⟩
  unfold smc_prefetch_map_lookup
  rw [hs1]
  refine g_hash_table_lookup_insert_other _ _ _ _ ?_
  rw [smc_prefetch_map_key_64 a ha, smc_prefetch_map_key_64 b hb]
  exact fun heq => hab heq.symm

theorem smc_prefetch_map_insert_frame_witness :
    smc_prefetch_map_lookup 64
        { smc_info_sample with prefetch_map := [(4096, 5), (8192, 6)] } 8192
        = smc_prefetch_map_lookup 64
            { smc_info_sample with prefetch_map := [(8192, 6)] } 8192 ∧
      smc_prefetch_map_key 32 4096 = smc_prefetch_map_key 32 (4096 + 2 ^ 32) :=
  ⟨(smc_prefetch_map_insert_frame { smc_info_sample with prefetch_map := [(8192, 6)] }
      { smc_info_sample with prefetch_map := [(4096, 5), (8192, 6)] } 4096 8192 5
      (by decide) (by decide) (by decide) rfl).1,
   (smc_prefetch_map_insert_frame { smc_info_sample with prefetch_map := [(8192, 6)] }
      { smc_info_sample with prefetch_map := [(4096, 5), (8192, 6)] } 4096 8192 5
      (by decide) (by decide) (by decide) rfl).2 32 (by decide)⟩

/-- With a 32-bit uintptr_t the insert of address 0 changes what the lookup of
address 2^32 returns. -/
theorem smc_prefetch_map_insert_frame_narrow :
    smc_prefetch_map_insert 32 smc_info_sample 0 5
        = Except.ok { smc_info_sample with prefetch_map := [(0, 5)] } ∧
      smc_prefetch_map_lookup 32 smc_info_sample (2 ^ 32) = NULL ∧
      smc_prefetch_map_lookup 32 { smc_info_sample with prefetch_map := [(0, 5)] } (2 ^ 32)
        = 5 :=
  ⟨rfl, by decide, by decide⟩

/-! ## The session state -/

theorem mem_read_length (mem : Mem) (addr n : Nat) : (mem_read mem addr n).length = n := by
  simp [mem_read]

theorem mem_read_congr (m1 m2 : Mem) (addr n : Nat)
    (h : ∀ i, i < n → m1 (addr + i) = m2 (addr + i)) :
    mem_read m1 addr n = mem_read m2 addr n := by
  unfold mem_read
  apply List.map_congr_left
  intro i hi
  exact h i (List.mem_range.mp hi)

theorem mem_read_getD (mem : Mem) (addr n i : Nat) (hi : i < n) :
    (mem_read mem addr n).getD i 0 = mem (addr + i) := by
  simp [mem_read, List.getD_eq_getElem?_getD, List.getElem?_map, List.getElem?_range hi]

/-- Restoring a record whose live buffer does not overlap a range leaves the
range as it was. -/
theorem smc_backup_page_restore_disjoint (mem : Mem) (page : SMCBackupPage) (addr n : Nat)
    (h : page.host_addr + page.size ≤ addr ∨ addr + n ≤ page.host_addr) :
    mem_read (smc_backup_page_restore mem page) addr n = mem_read mem addr n := by
  apply mem_read_congr
  intro i hi
  have hout : ¬ (page.host_addr ≤ addr + i ∧ addr + i < page.host_addr + page.size) := by
    omega
  simp [smc_backup_page_restore, memcpy, hout]

theorem smc_backup_pages_restore_disjoint (pages : List SMCBackupPage) (addr n : Nat) :
    ∀ (mem : Mem),
      (∀ r ∈ pages, r.host_addr + r.size ≤ addr ∨ addr + n ≤ r.host_addr) →
      mem_read (pages.foldl smc_backup_page_restore mem) addr n = mem_read mem addr n := by
  induction pages with
  | nil => intro mem _; rfl
  | cons r rest ih =>
    intro mem h
    rw [List.foldl_cons, ih _ (fun x hx => h x (List.mem_cons_of_mem _ hx))]
    exact smc_backup_page_restore_disjoint mem r addr n (h r (List.mem_cons_self _ _))

/-- Restoring a record captured at a range puts the captured bytes back. -/
theorem smc_backup_page_restore_same (mem mem0 : Mem) (block_offset offset addr n : Nat) :
    mem_read (smc_backup_page_restore mem
      { block_offset := block_offset, offset := offset, size := n,
        data := mem_read mem0 addr n, host_addr := addr }) addr n = mem_read mem0 addr n := by
  apply mem_read_congr
  intro i hi
  have hin : addr ≤ addr + i ∧ addr + i < addr + n := by omega
  simp only [smc_backup_page_restore, memcpy, hin, and_self, if_true, Nat.add_sub_cancel_left]
  exact mem_read_getD mem0 addr n i hi

/-- C2: on a session whose earlier backup records do not overlap the n bytes
at address A, capture A while it holds X, overwrite it with Y, capture A again
(the record then holds Y), overwrite it with Z: after smc_recover_backup_pages
the n bytes at A are X again (so not Y, when Y differs from X), and the backup
set holds no record. -/
theorem smc_recover_backup_pages_newest_first (mem : Mem) (s : SMCInfo)
    (block_offset offset A : Nat) (X Y Z : List Nat)
    (hX : mem_read mem A X.length = X) (hY : Y.length = X.length) (hZ : Z.length = X.length)
    (hprior : ∀ r ∈ s.backup_pages.eles,
      r.host_addr + r.size ≤ A ∨ A + X.length ≤ r.host_addr) :
    mem_read (memcpy mem A Y X.length) A X.length = Y ∧
      mem_read (memcpy (memcpy mem A Y X.length) A Z X.length) A X.length = Z ∧
      mem_read (smc_recover_backup_pages (memcpy (memcpy mem A Y X.length) A Z X.length)
        (smc_backup_pages_insert_empty (memcpy mem A Y X.length)
          (smc_backup_pages_insert_empty mem s block_offset offset X.length A)
          block_offset offset X.length A)).1 A X.length = X ∧
      (X ≠ Y → mem_read (smc_recover_backup_pages
        (memcpy (memcpy mem A Y X.length) A Z X.length)
        (smc_backup_pages_insert_empty (memcpy mem A Y X.length)
          (smc_backup_pages_insert_empty mem s block_offset offset X.length A)
          block_offset offset X.length A)).1 A X.length ≠ Y) ∧
      smc_backup_pages_count (smc_recover_backup_pages
        (memcpy (memcpy mem A Y X.length) A Z X.length)
        (smc_backup_pages_insert_empty (memcpy mem A Y X.length)
          (smc_backup_pages_insert_empty mem s block_offset offset X.length A)
          block_offset offset X.length A)).2 = 0 ∧
      (smc_recover_backup_pages (memcpy (memcpy mem A Y X.length) A Z X.length)
        (smc_backup_pages_insert_empty (memcpy mem A Y X.length)
          (smc_backup_pages_insert_empty mem s block_offset offset X.length A)
          block_offset offset X.length A)).2.backup_pages.eles = [] := by
  have hwrite : ∀ (m : Mem) (W : List Nat), W.length = X.length →
      mem_read (memcpy m A W X.length) A X.length = W := by
    intro m W hW
    apply List.ext_getElem
    · rw [mem_read_length, hW]
    · intro i h1 h2
      have hi : i < X.length := by rw [mem_read_length] at h1; exact h1
      have hin : A ≤ A + i ∧ A + i < A + X.length := by omega
      simp only [mem_read, memcpy, List.getElem_map, List.getElem_range, hin, and_self,
        if_true, Nat.add_sub_cancel_left, List.getD_eq_getElem?_getD,
        List.getElem?_eq_getElem h2, Option.getD_some]
  have hrestored : mem_read (smc_recover_backup_pages
      (memcpy (memcpy mem A Y X.length) A Z X.length)
      (smc_backup_pages_insert_empty (memcpy mem A Y X.length)
        (smc_backup_pages_insert_empty mem s block_offset offset X.length A)
        block_offset offset X.length A)).1 A X.length = X := by
    simp only [smc_recover_backup_pages, smc_backup_pages_insert_empty, smc_set_insert,
      List.reverse_append, List.reverse_cons, List.reverse_nil, List.nil_append,
      List.singleton_append, List.foldl_cons]
    rw [smc_backup_pages_restore_disjoint _ A X.length _
      (fun r hr => hprior r (List.mem_reverse.mp hr))]
    rw [smc_backup_page_restore_same]
    exact hX
  refine ⟨hwrite _ Y hY, hwrite _ Z hZ, hrestored, ?_, rfl, rfl⟩
  intro hne
  rw [hrestored]
  exact hne

theorem smc_recover_backup_pages_newest_first_witness :
    mem_read (memcpy mem_sample 4096 [7, 7] 2) 4096 2 = [7, 7] ∧
      mem_read (memcpy (memcpy mem_sample 4096 [7, 7] 2) 4096 [9, 9] 2) 4096 2 = [9, 9] ∧
      mem_read (smc_recover_backup_pages (memcpy (memcpy mem_sample 4096 [7, 7] 2) 4096 [9, 9] 2)
        (smc_backup_pages_insert_empty (memcpy mem_sample 4096 [7, 7] 2)
          (smc_backup_pages_insert_empty mem_sample smc_info_sample 0 4096 2 4096)
          0 4096 2 4096)).1 4096 2 = [0, 1] ∧
      (([0, 1] : List Nat) ≠ [7, 7] → mem_read (smc_recover_backup_pages
        (memcpy (memcpy mem_sample 4096 [7, 7] 2) 4096 [9, 9] 2)
        (smc_backup_pages_insert_empty (memcpy mem_sample 4096 [7, 7] 2)
          (smc_backup_pages_insert_empty mem_sample smc_info_sample 0 4096 2 4096)
          0 4096 2 4096)).1 4096 2 ≠ [7, 7]) ∧
      smc_backup_pages_count (smc_recover_backup_pages
        (memcpy (memcpy mem_sample 4096 [7, 7] 2) 4096 [9, 9] 2)
        (smc_backup_pages_insert_empty (memcpy mem_sample 4096 [7, 7] 2)
          (smc_backup_pages_insert_empty mem_sample smc_info_sample 0 4096 2 4096)
          0 4096 2 4096)).2 = 0 ∧
      (smc_recover_backup_pages (memcpy (memcpy mem_sample 4096 [7, 7] 2) 4096 [9, 9] 2)
        (smc_backup_pages_insert_empty (memcpy mem_sample 4096 [7, 7] 2)
          (smc_backup_pages_insert_empty mem_sample smc_info_sample 0 4096 2 4096)
          0 4096 2 4096)).2.backup_pages.eles = [] :=
  smc_recover_backup_pages_newest_first mem_sample smc_info_sample 0 4096 4096
    [0, 1] [7, 7] [9, 9] (by decide) (by decide) (by decide) (by decide)

/-! ## The fingerprint cache -/

theorem smc_cache_evict_n_length (victim : List SMCCacheEntry → Nat) (n : Nat) :
    ∀ entries : List SMCCacheEntry,
      (smc_cache_evict_n victim n entries).length = entries.length - n := by
  induction n with
  | zero => intro entries; rfl
  | succ n ih =>
    intro entries
    rw [smc_cache_evict_n, ih, List.length_eraseIdx]
    cases entries with
    | nil => simp
    | cons e rest =>
      have hlt : victim (e :: rest) % (e :: rest).length < (e :: rest).length :=
        Nat.mod_lt _ (by simp)
      rw [if_pos hlt]
      omega

/-- After an eviction the cache holds the smaller of what it held and
SMC_FETCH_CACHE_CAP. -/
theorem smc_cache_evict_length (victim : List SMCCacheEntry → Nat) (cache : SMCCache) :
    (smc_cache_evict victim cache).entries.length
      = min cache.entries.length SMC_FETCH_CACHE_CAP := by
  simp only [smc_cache_evict]
  rw [smc_cache_evict_n_length]
  generalize SMC_FETCH_CACHE_CAP = c
  omega

/-- Absorbing a record never shrinks the cache. -/
theorem smc_cache_absorb_length (cache : SMCCache) (page : SMCFetchPage) :
    cache.entries.length ≤ (smc_cache_absorb cache page).entries.length := by
  unfold smc_cache_absorb
  split <;> simp

/-- Absorbing the record of a page without an entry adds one entry. -/
theorem smc_cache_absorb_length_fresh (cache : SMCCache) (page : SMCFetchPage)
    (h : smc_cache_find cache page.block_offset page.offset = none) :
    (smc_cache_absorb cache page).entries.length = cache.entries.length + 1 := by
  unfold smc_cache_absorb
  rw [h]
  simp

theorem smc_update_prefetch_cache_count (victim : List SMCCacheEntry → Nat)
    (validated : SMCFetchPage → Bool) (s : SMCInfo) :
    smc_cache_count (smc_update_prefetch_cache victim validated s) ≤ SMC_FETCH_CACHE_CAP := by
  simp only [smc_cache_count, smc_update_prefetch_cache]
  rw [smc_cache_evict_length]
  exact Nat.min_le_right _ _

/-- C6: for every session, every eviction order and every choice of the
validated records, the cache holds at most SMC_FETCH_CACHE_CAP = 20000 entries
after each call of a sequence of smc_update_prefetch_cache calls, whatever
prefetch sets come in between. -/
theorem smc_update_prefetch_cache_bounded (victim : List SMCCacheEntry → Nat)
    (validated : SMCFetchPage → Bool) (sets : List (SMCSet SMCFetchPage)) :
    ∀ (s : SMCInfo), ∀ t ∈ smc_update_prefetch_cache_run victim validated s sets,
      smc_cache_count t ≤ 20000 := by
  induction sets with
  | nil => intro s t ht; simp [smc_update_prefetch_cache_run] at ht
  | cons pages rest ih =>
    intro s t ht
    simp only [smc_update_prefetch_cache_run, List.mem_cons] at ht
    rcases ht with ht | ht
    · rw [ht]
      exact smc_update_prefetch_cache_count victim validated _
    · exact ih _ t ht

theorem smc_info_full_count : smc_cache_count smc_info_full = SMC_FETCH_CACHE_CAP := by
  simp [smc_cache_count, smc_info_full]

theorem smc_info_full_fresh :
    smc_cache_find smc_info_full.cache 0 4096 = none := by
  simp [smc_cache_find, smc_info_full]

theorem smc_update_prefetch_cache_bounded_witness :
    smc_cache_count smc_info_full = 20000 ∧
      (smc_cache_absorb smc_info_full.cache
        { block_offset := 0, offset := 4096, size := 4, idx := 0, hash := 6 }).entries.length
        = 20001 ∧
      smc_cache_count (smc_update_prefetch_cache (fun _ => 0) (fun _ => true)
        { smc_info_full with prefetch_pages := smc_info_prefetched.prefetch_pages })
        ≤ 20000 :=
  ⟨smc_info_full_count,
   by
    have h1 := smc_cache_absorb_length_fresh smc_info_full.cache
      { block_offset := 0, offset := 4096, size := 4, idx := 0, hash := 6 } smc_info_full_fresh
    have h2 : smc_info_full.cache.entries.length = SMC_FETCH_CACHE_CAP := smc_info_full_count
    rw [h1, h2]
    rfl,
   smc_update_prefetch_cache_bounded (fun _ => 0) (fun _ => true)
    [smc_info_prefetched.prefetch_pages] smc_info_full _ (List.mem_cons_self _ _)⟩

/-! ## Bulk insert of dirty pages -/

end SMC
